import Mathlib

/-!
Shallow embedding of the OpenCHAMI remote-console services.

The embedding covers the three services of the repository that the verified
claims are about:

* the console-data service (database API in the `main` package holding the
  `ownership` table plus the in-memory `nodePodsAcquiring` map, and its REST
  handlers);
* the console-node worker (current-node maps and `rebalanceNodes`, plus the
  conman configuration generator with its `UPDATE_CONFIG` escape hatch);
* the console-operator (`updateNodeCounts` autoscaling computation).

Database rows are modelled as a list of records; SQL row order is the list
order (the queries in the source carry no ORDER BY, and no verified property
depends on a particular order).  Timestamps are integers in a single abstract
time unit.  Go maps are modelled as association lists whose key uniqueness is
maintained by the update operations.  Effects on the outside world (the k8s
replica set, the shared targets file, the Release REST call) are modelled as
explicit action values in the results.
-/

namespace RemoteConsole

/-- Node console information of the data service (struct NodeConsoleInfo,
restapi.go).  Field defaults mirror Go zero values. -/
structure NodeConsoleInfo where
  NodeName : String := ""
  BmcName : String := ""
  BmcFqdn : String := ""
  Class : String := ""
  NID : Int := 0
  Role : String := ""
  NodeConsoleName : String := ""
deriving Repr, DecidableEq

/-- Heartbeat request body (struct nodeConsoleInfoHeartBeat, restapi.go). -/
structure nodeConsoleInfoHeartBeat where
  CurrNodes : List NodeConsoleInfo
  PodLocation : String
deriving Repr, DecidableEq

/-- One row of the `ownership` table (prepareDB).  `console_pod_id`,
`last_updated` and `heartbeat` are nullable. -/
structure OwnershipRow where
  node_name : String
  node_bmc_name : String
  node_bmc_fqdn : String
  node_class : String
  node_nid_number : Int
  node_role : String
  console_pod_id : Option String
  last_updated : Option Int
  heartbeat : Option Int
deriving Repr, DecidableEq

/-- State of the console-data service: the `ownership` table plus the
in-memory `nodePodsAcquiring` map (pod id to last-seen timestamp). -/
structure DataState where
  rows : List OwnershipRow
  nodePodsAcquiring : List (String × Int)
deriving Repr, DecidableEq

/-- Only one console-node pod can monitor itself if it is the only one
running (constant selfMonitorMax in the database file). -/
def selfMonitorMax : Nat := 1

/-- Update the timestamp for an actively acquiring pod
(notifyNodeAcquiring).  A Go map store: replace the entry when the key is
present, append it otherwise. -/
def notifyNodeAcquiring (pod : String) (now : Int) (m : List (String × Int)) :
    List (String × Int) :=
  if m.any (fun p => decide (p.1 = pod)) then
    m.map (fun p => if p.1 = pod then (p.1, now) else p)
  else m ++ [(pod, now)]

/-- Clear out the pods that have not been heard from in a while
(clearStaleNodesAcquiring): an entry is stale when its timestamp plus the
limit lies before now; stale entries are deleted from the map. -/
def clearStaleNodesAcquiring (limit : Int) (tsNow : Int)
    (m : List (String × Int)) : List (String × Int) :=
  m.filter (fun p => decide (¬ p.2 + limit < tsNow))

/-- Number of currently active pods (getNumActivePods): the map size. -/
def getNumActivePods (m : List (String × Int)) : Nat := m.length

/-- Projection of an ownership row onto the scanned NodeConsoleInfo
(the rows.Scan loop of acquireNodesOfType). -/
def rowToNCI (r : OwnershipRow) : NodeConsoleInfo :=
  { NodeName := r.node_name, BmcName := r.node_bmc_name,
    BmcFqdn := r.node_bmc_fqdn, Class := r.node_class,
    NID := r.node_nid_number, Role := r.node_role, NodeConsoleName := "" }

/-- acquireNodesOfType: SELECT the rows of the given class whose
`console_pod_id` is NULL, LIMIT numNodes, and scan them into
NodeConsoleInfo records. -/
def acquireNodesOfType (s : DataState) (nodeType : String) (numNodes : Int) :
    List NodeConsoleInfo :=
  ((s.rows.filter
      (fun r => decide (r.node_class = nodeType ∧ r.console_pod_id = none))).take
    numNodes.toNat).map rowToNCI

/-- Size of the selection pool of acquireNodesOfType: the number of unowned
rows of the given class. -/
def cntUnowned (s : DataState) (t : String) : Nat :=
  (s.rows.filter
    (fun r => decide (r.node_class = t ∧ r.console_pod_id = none))).length

/-- Result of dbConsolePodAcquireNodes. -/
structure AcquireResult where
  rowsAffected : Int
  acquired : List NodeConsoleInfo
  state : DataState
deriving Repr, DecidableEq

/-- The mountain-budget selection of dbConsolePodAcquireNodes: Mountain
rows up to the budget, then Hill rows for the remainder, then Paradise rows
for what is still missing.  All three selections read the same table
because the single UPDATE runs only afterwards. -/
def acquireMtnNodes (s : DataState) (numMtn : Int) : List NodeConsoleInfo :=
  if 0 < numMtn then
    let a1 := acquireNodesOfType s "Mountain" numMtn
    let a12 := a1 ++
      (if (a1.length : Int) < numMtn then
        acquireNodesOfType s "Hill" (numMtn - a1.length)
      else [])
    a12 ++
      (if (a12.length : Int) < numMtn then
        acquireNodesOfType s "Paradise" (numMtn - a12.length)
      else [])
  else []

/-- The single UPDATE of dbConsolePodAcquireNodes: set
`console_pod_id = pod_id, heartbeat = now()` on every row whose name is in
the built name list. -/
def acquireUpdateRows (pod_id : String) (now : Int) (names : List String)
    (rows : List OwnershipRow) : List OwnershipRow :=
  rows.map (fun r =>
    if decide (r.node_name ∈ names) then
      { r with console_pod_id := some pod_id, heartbeat := some now }
    else r)

/-- dbConsolePodAcquireNodes: register the pod in the acquiring map, return
immediately when both requested counts are below one, otherwise select the
mountain budget (Mountain, then Hill, then Paradise) and then River rows up
to the river budget, and finally run the UPDATE on the selected names in
one statement.  The UPDATE runs only when the built name list is non-empty,
exactly as in the source; registering the pod touches only the acquiring
map, so the selections read the table of the input state. -/
def dbConsolePodAcquireNodes (pod_id : String) (numMtn numRvr : Int)
    (now : Int) (s0 : DataState) : AcquireResult :=
  let acq := notifyNodeAcquiring pod_id now s0.nodePodsAcquiring
  if numMtn < 1 ∧ numRvr < 1 then
    { rowsAffected := 0, acquired := [],
      state := { rows := s0.rows, nodePodsAcquiring := acq } }
  else
    let acquired := acquireMtnNodes s0 numMtn ++
      (if 0 < numRvr then acquireNodesOfType s0 "River" numRvr else [])
    if acquired.isEmpty then
      { rowsAffected := 0, acquired := acquired,
        state := { rows := s0.rows, nodePodsAcquiring := acq } }
    else
      let names : List String := acquired.map (·.NodeName)
      { rowsAffected :=
          ((s0.rows.filter (fun r => decide (r.node_name ∈ names))).length : Int),
        acquired := acquired,
        state := { rows := acquireUpdateRows pod_id now names s0.rows,
                   nodePodsAcquiring := acq } }

/-- The CHECK constraints of the `ownership` table: the five varchar columns
are non-empty and the nid is non-zero. -/
def validNode (n : NodeConsoleInfo) : Bool :=
  decide (n.NodeName ≠ "" ∧ n.BmcName ≠ "" ∧ n.BmcFqdn ≠ "" ∧
    n.Class ≠ "" ∧ n.NID ≠ 0 ∧ n.Role ≠ "")

/-- The row built by the INSERT of dbUpdateNodes: owner NULL, last_updated
now(), heartbeat NULL. -/
def nciToRow (n : NodeConsoleInfo) (now : Int) : OwnershipRow :=
  { node_name := n.NodeName, node_bmc_name := n.BmcName,
    node_bmc_fqdn := n.BmcFqdn, node_class := n.Class,
    node_nid_number := n.NID, node_role := n.Role,
    console_pod_id := none, last_updated := some now, heartbeat := none }

/-- Result of dbUpdateNodes: rows inserted, whether any insert errored, and
the resulting table. -/
structure UpdateNodesResult where
  rowsInserted : Int
  hadError : Bool
  rows : List OwnershipRow
deriving Repr, DecidableEq

/-- dbUpdateNodes: insert each record with ON CONFLICT (node_name) DO
NOTHING; a duplicate contributes zero to the count, a CHECK-constraint
violation errors and inserts nothing, and the loop is non-transactional. -/
def dbUpdateNodes (ncis : List NodeConsoleInfo) (now : Int)
    (rows : List OwnershipRow) : UpdateNodesResult :=
  match ncis with
  | [] => { rowsInserted := 0, hadError := false, rows := rows }
  | n :: rest =>
    if validNode n then
      if rows.any (fun r => decide (r.node_name = n.NodeName)) then
        dbUpdateNodes rest now rows
      else
        let res := dbUpdateNodes rest now (rows ++ [nciToRow n now])
        { res with rowsInserted := res.rowsInserted + 1 }
    else
      let res := dbUpdateNodes rest now rows
      { res with hadError := true }

/-- REST handler updateNodes: 500 on a database error, 201 with
created=N when any row was created, 200 otherwise. -/
def updateNodes (ncis : List NodeConsoleInfo) (now : Int) (s : DataState) :
    Nat × DataState :=
  let res := dbUpdateNodes ncis now s.rows
  if res.hadError then (500, { s with rows := res.rows })
  else if res.rowsInserted > 0 then (201, { s with rows := res.rows })
  else (200, { s with rows := res.rows })

/-- The WHERE clause of dbClearStaleNodes: `heartbeat < now() - INTERVAL
duration`; a NULL heartbeat never matches. -/
def staleRow (duration now : Int) (r : OwnershipRow) : Bool :=
  match r.heartbeat with
  | some h => decide (h < now - duration)
  | none => false

/-- Result of dbClearStaleNodes. -/
structure ClearStaleResult where
  rowsAffected : Int
  state : DataState
deriving Repr, DecidableEq

/-- dbClearStaleNodes: set `console_pod_id = NULL, heartbeat = NULL` on every
row whose heartbeat is older than now minus the duration, then clear the
stale entries of the acquiring map with the same duration. -/
def dbClearStaleNodes (duration : Int) (now : Int) (s : DataState) :
    ClearStaleResult :=
  let rows := s.rows.map (fun r =>
    if staleRow duration now r then
      { r with console_pod_id := none, heartbeat := none }
    else r)
  let ra := (s.rows.filter (staleRow duration now)).length
  { rowsAffected := (ra : Int),
    state := { rows := rows,
               nodePodsAcquiring :=
                 clearStaleNodesAcquiring duration now s.nodePodsAcquiring } }

/-- dbFindConsolePodForNode: the NodeConsoleName produced for a lookup.  An
absent row and a NULL `console_pod_id` both yield the empty string. -/
def dbFindConsolePodForNode (nodeName : String) (rows : List OwnershipRow) :
    String :=
  match rows.find? (fun r => decide (r.node_name = nodeName)) with
  | none => ""
  | some r =>
    match r.console_pod_id with
    | some podId => podId
    | none => ""

/-- REST handler findConsolePodForNode: 400 on a missing xname, then 404
when the looked-up NodeConsoleName is empty and 200 otherwise. -/
def findConsolePodForNode (xname : String) (s : DataState) :
    Nat × NodeConsoleInfo :=
  if xname = "" then (400, {})
  else
    let nci : NodeConsoleInfo :=
      { NodeName := xname,
        NodeConsoleName := dbFindConsolePodForNode xname s.rows }
    if nci.NodeConsoleName = "" then (404, nci) else (200, nci)

/-- One UPDATE of the heartbeat loop: set `heartbeat = now()` on the rows
matching the node name and the pod id, returning the new table and the
affected count. -/
def heartbeatExec (pod_id nodeName : String) (now : Int)
    (rows : List OwnershipRow) : List OwnershipRow × Nat :=
  (rows.map (fun r =>
      if decide (r.node_name = nodeName ∧ r.console_pod_id = some pod_id) then
        { r with heartbeat := some now }
      else r),
   (rows.filter
      (fun r => decide (r.node_name = nodeName ∧ r.console_pod_id = some pod_id))).length)

/-- The per-node loop of dbConsolePodHeartbeat.  A node whose name equals
the pod location breaks the loop when at most selfMonitorMax pods are
active; with more active pods it is pushed into the notUpdated list and the
loop falls through to the UPDATE for that same node.  A zero affected count
also pushes the node into the notUpdated list.  Returns the table, the
notUpdated list and the total affected count. -/
def heartbeatLoop (pod_id loc : String) (currentNodePods : Nat) (now : Int) :
    List OwnershipRow → List NodeConsoleInfo →
    List OwnershipRow × List NodeConsoleInfo × Nat
  | rows, [] => (rows, [], 0)
  | rows, nci :: rest =>
    if nci.NodeName = loc ∧ ¬ currentNodePods > selfMonitorMax then
      (rows, [], 0)
    else
      let selfPush : List NodeConsoleInfo :=
        if nci.NodeName = loc then [nci] else []
      let step := heartbeatExec pod_id nci.NodeName now rows
      let raPush : List NodeConsoleInfo := if step.2 = 0 then [nci] else []
      let rec' := heartbeatLoop pod_id loc currentNodePods now step.1 rest
      (rec'.1, selfPush ++ raPush ++ rec'.2.1, step.2 + rec'.2.2)

/-- Result of dbConsolePodHeartbeat. -/
structure HeartbeatResult where
  rowsAffected : Nat
  notUpdated : List NodeConsoleInfo
  state : DataState
deriving Repr, DecidableEq

/-- dbConsolePodHeartbeat: register the pod in the acquiring map, read the
active-pod count, then run the per-node loop over the request body. -/
def dbConsolePodHeartbeat (pod_id : String) (hb : nodeConsoleInfoHeartBeat)
    (now : Int) (s0 : DataState) : HeartbeatResult :=
  let acq := notifyNodeAcquiring pod_id now s0.nodePodsAcquiring
  let currentNodePods := getNumActivePods acq
  let out := heartbeatLoop pod_id hb.PodLocation currentNodePods now s0.rows hb.CurrNodes
  { rowsAffected := out.2.2, notUpdated := out.2.1,
    state := { rows := out.1, nodePodsAcquiring := acq } }

/-- A serialized sequence of acquire requests (pod id, numMtn, numRvr)
against the data service; returns the final state and the per-request
acquired lists.  Requests are serialized by the service mutex. -/
def runClaims (now : Int) (s : DataState) :
    List (String × Int × Int) → DataState × List (List NodeConsoleInfo)
  | [] => (s, [])
  | (pod, m, r) :: rest =>
    let res := dbConsolePodAcquireNodes pod m r now s
    let rec' := runClaims now res.state rest
    (rec'.1, res.acquired :: rec'.2)

/-! ## Console-node worker: current-node maps and rebalancing -/

/-- Node console information of the worker (struct nodeConsoleInfo of the
node-management file; same fields without the pod name). -/
structure nodeConsoleInfo where
  NodeName : String := ""
  BmcName : String := ""
  BmcFqdn : String := ""
  Class : String := ""
  NID : Int := 0
  Role : String := ""
deriving Repr, DecidableEq

/-- The three maps of nodes currently monitored by a worker, keyed by xname:
River (ipmi), Mountain and Hill (key ssh), Paradise (password ssh). -/
structure WorkerNodes where
  currentRvrNodes : List (String × nodeConsoleInfo)
  currentMtnNodes : List (String × nodeConsoleInfo)
  currentPdsNodes : List (String × nodeConsoleInfo)
deriving Repr, DecidableEq

/-- Result of rebalanceNodes: the new maps, the list passed to the single
releaseNodes call (empty when no call is made), and the returned flag. -/
structure RebalanceResult where
  nodes : WorkerNodes
  released : List nodeConsoleInfo
  changed : Bool
deriving Repr, DecidableEq

/-- The river loop of rebalanceNodes: visit entries, deleting one per visit
while the map is larger than the target, and break as soon as it is not.
Returns the kept entries and the removed node infos in removal order. -/
def rvrEvictLoop : List (String × nodeConsoleInfo) → Int →
    List (String × nodeConsoleInfo) × List nodeConsoleInfo
  | [], _ => ([], [])
  | x :: xs, target =>
    if ((x :: xs).length : Int) > target then
      let rec' := rvrEvictLoop xs target
      (rec'.1, x.2 :: rec'.2)
    else (x :: xs, [])

/-- The mountain loop of rebalanceNodes: while the Mountain and Paradise
maps together exceed the target, remove one node from whichever of the two
maps is larger (the Paradise map on ties), breaking if the chosen map is
empty. -/
def mtnEvictLoop (mtn pds : List (String × nodeConsoleInfo)) (target : Int) :
    List (String × nodeConsoleInfo) × List (String × nodeConsoleInfo) ×
      List nodeConsoleInfo :=
  if ((mtn.length + pds.length : Nat) : Int) > target then
    if mtn.length > pds.length then
      match mtn with
      | [] => (mtn, pds, [])
      | x :: xs =>
        let rec' := mtnEvictLoop xs pds target
        (rec'.1, rec'.2.1, x.2 :: rec'.2.2)
    else
      match pds with
      | [] => (mtn, pds, [])
      | x :: xs =>
        let rec' := mtnEvictLoop mtn xs target
        (rec'.1, rec'.2.1, x.2 :: rec'.2.2)
  else (mtn, pds, [])
termination_by mtn.length + pds.length

/-- rebalanceNodes: exit early when the River map is within its target and
the Mountain map alone is within the mountain target; otherwise run the
river and mountain eviction loops and, when any node was evicted, emit one
releaseNodes call with all of them and report a change. -/
def rebalanceNodes (w : WorkerNodes) (targetRvrNodes targetMtnNodes : Int) :
    RebalanceResult :=
  if (w.currentRvrNodes.length : Int) ≤ targetRvrNodes ∧
      (w.currentMtnNodes.length : Int) ≤ targetMtnNodes then
    { nodes := w, released := [], changed := false }
  else
    let rvrOut := rvrEvictLoop w.currentRvrNodes targetRvrNodes
    let mtnOut := mtnEvictLoop w.currentMtnNodes w.currentPdsNodes targetMtnNodes
    let rn := rvrOut.2 ++ mtnOut.2.2
    if rn.isEmpty then
      { nodes := { currentRvrNodes := rvrOut.1, currentMtnNodes := mtnOut.1,
                   currentPdsNodes := mtnOut.2.1 },
        released := [], changed := false }
    else
      { nodes := { currentRvrNodes := rvrOut.1, currentMtnNodes := mtnOut.1,
                   currentPdsNodes := mtnOut.2.1 },
        released := rn, changed := true }

/-! ## Console-operator: autoscaling computation -/

/-- Exact ceiling division on naturals; stands for math.Ceil applied to the
float quotient in updateNodeCounts, which is exact at the node-count
magnitudes involved. -/
def ceilDiv (a b : Nat) : Nat := (a + b - 1) / b

/-- The externally visible actions of updateNodeCounts: the replica count
passed to updateReplicaCount (none when the update is skipped) and the pair
(newMtn, newRvr) passed to updateNodesPerPod, the writer of the shared
targets file (none when no write happens). -/
structure AutoscaleActions where
  replicasSet : Option Nat
  targetsWritten : Option (Int × Int)
deriving Repr, DecidableEq

/-- updateNodeCounts: bail when no nodes were reported; otherwise compute
the replica requirement of each class as the ceiling quotient plus one, set
the replica count to their maximum, compute the per-pod targets as the
ceiling quotient by the new pod count plus one and, when reading the current
replica count errored, add the returned count to both targets and write
them; when the read succeeded, write them only if either differs from the
stored per-pod numbers. -/
def updateNodeCounts (numMtnNodes numRvrNodes : Nat)
    (maxMtnNodesPerPod maxRvrNodesPerPod : Nat)
    (currNodeReplicas : Int) (replicaCountErr : Bool)
    (numMtnNodesPerPod numRvrNodesPerPod : Int) : AutoscaleActions :=
  if numMtnNodes + numRvrNodes = 0 then
    { replicasSet := none, targetsWritten := none }
  else
    let mm := max maxMtnNodesPerPod 1
    let mr := max maxRvrNodesPerPod 1
    let numMtnReq := ceilDiv numMtnNodes mm + 1
    let numRvrReq := ceilDiv numRvrNodes mr + 1
    let newNumPods := max numMtnReq numRvrReq
    let newMtn : Int := (ceilDiv numMtnNodes newNumPods : Nat) + 1
    let newRvr : Int := (ceilDiv numRvrNodes newNumPods : Nat) + 1
    if replicaCountErr then
      { replicasSet := some newNumPods,
        targetsWritten := some (newMtn + currNodeReplicas, newRvr + currNodeReplicas) }
    else
      { replicasSet := some newNumPods,
        targetsWritten :=
          if newRvr ≠ numRvrNodesPerPod ∨ newMtn ≠ numMtnNodesPerPod then
            some (newMtn, newRvr)
          else none }

/-- The autoscaler computation exactly as the claim words it: replicas is
the maximum of the two ceiling quotients plus one, and the written per-pod
targets are the ceiling quotient by the replica count plus one plus the
current replica count.  Kept separate from the source embedding for
comparison. -/
def claimedAutoscale (numMtnNodes numRvrNodes : Nat) (maxMtn maxRvr : Nat)
    (currentReplicaCount : Int) : AutoscaleActions :=
  if numMtnNodes + numRvrNodes = 0 then
    { replicasSet := none, targetsWritten := none }
  else
    let replicas := max (ceilDiv numMtnNodes maxMtn) (ceilDiv numRvrNodes maxRvr) + 1
    { replicasSet := some replicas,
      targetsWritten :=
        some (((ceilDiv numMtnNodes replicas : Nat) : Int) + 1 + currentReplicaCount,
              ((ceilDiv numRvrNodes replicas : Nat) : Int) + 1 + currentReplicaCount) }

/-! ## Console-node worker: conman configuration escape hatch -/

/-- Index of the first occurrence of a needle in a character list, exactly
as strings.Index: the smallest index where the needle is a prefix of the
remaining list. -/
def firstIdxOf (needle : List Char) : List Char → Option Nat
  | [] => if needle = [] then some 0 else none
  | c :: rest =>
    if needle.isPrefixOf (c :: rest) then some 0
    else (firstIdxOf needle rest).map (· + 1)

/-- The flag string searched by willUpdateConfig. -/
def updateConfigKey : List Char := "UPDATE_CONFIG=".toList

/-- willUpdateConfig: read the first 50 bytes of the base file (a short read
returns false), search for the flag string with strings.Index, and when it
occurs at a positive position inspect the next character: the update
proceeds only when that character is neither F nor f.  A missing value
character makes Go panic before the configuration is written, so the model
returns false there. -/
def willUpdateConfig (contents : List Char) : Bool :=
  let buff := contents.take 50
  if buff.length < 50 then false
  else
    match firstIdxOf updateConfigKey buff with
    | some pos =>
      if pos > 0 then
        match buff.get? (pos + updateConfigKey.length) with
        | some c => decide (¬ (c = 'F' ∨ c = 'f'))
        | none => false
      else false
    | none => false

/-- updateConfigFile rewrites the conman configuration exactly when the
force flag is set or willUpdateConfig allows it. -/
def updateConfigWrites (forceUpdate : Bool) (contents : List Char) : Bool :=
  forceUpdate || willUpdateConfig contents

/-- The force flag used by the runConman loop: true before the first
configConman call, set to false immediately after it. -/
structure ConmanLoopState where
  forceConfigUpdate : Bool
deriving Repr, DecidableEq

/-- One runConman iteration as it affects the force flag: the current value
is passed to configConman and the flag is cleared. -/
def runConmanStep (s : ConmanLoopState) : Bool × ConmanLoopState :=
  (s.forceConfigUpdate, { forceConfigUpdate := false })

/-- The force flag passed to the n-th configConman call of runConman,
starting from the initial state with the flag set. -/
def conmanForceFlag (n : Nat) : Bool :=
  (Nat.iterate (fun s => (runConmanStep s).2) n
    { forceConfigUpdate := true }).forceConfigUpdate

/-- Case-insensitive containment used by the claim about the escape hatch:
the needle occurs in the haystack after both are lowercased. -/
def containsCI (needle haystack : List Char) : Bool :=
  decide ((needle.map Char.toLower) <:+: (haystack.map Char.toLower))

/-- Derived form of the per-row effect of a heartbeat request: a row is
refreshed exactly when some processed entry carries its name and the row is
owned by the requesting pod.  Used to state and prove row-level facts about
the heartbeat loop. -/
def hbEvolve (pod : String) (now : Int) (curr : List NodeConsoleInfo)
    (r : OwnershipRow) : OwnershipRow :=
  if (∃ e ∈ curr, e.NodeName = r.node_name) ∧ r.console_pod_id = some pod then
    { r with heartbeat := some now }
  else r

/-! ## Concrete fixtures used by the counterexamples and witnesses -/

/-- A well-formed ownership row for examples. -/
def exRow (name cls : String) (owner : Option String) (hb : Option Int) :
    OwnershipRow :=
  { node_name := name, node_bmc_name := name ++ "b",
    node_bmc_fqdn := name ++ "f", node_class := cls,
    node_nid_number := 1, node_role := "Compute",
    console_pod_id := owner, last_updated := some 0, heartbeat := hb }

/-- A store with two unowned Mountain, three Hill and five Paradise rows. -/
def prioStore : DataState where
  rows := [exRow "m1" "Mountain" none none, exRow "m2" "Mountain" none none,
           exRow "h1" "Hill" none none, exRow "h2" "Hill" none none,
           exRow "h3" "Hill" none none,
           exRow "p1" "Paradise" none none, exRow "p2" "Paradise" none none,
           exRow "p3" "Paradise" none none, exRow "p4" "Paradise" none none,
           exRow "p5" "Paradise" none none]
  nodePodsAcquiring := []

/-- The heartbeat record for node n1. -/
def selfNci : NodeConsoleInfo := { NodeName := "n1" }

/-- A store where pod p1 owns node n1 and two pods are active. -/
def hbSelfStore : DataState where
  rows := [exRow "n1" "Mountain" (some "p1") (some 0)]
  nodePodsAcquiring := [("p1", 0), ("p2", 0)]

/-- A store where pod p1 owns n1, pod p9 owns n2, and only p1 is active. -/
def hbSoloStore : DataState where
  rows := [exRow "n1" "Mountain" (some "p1") (some 0),
           exRow "n2" "Mountain" (some "p9") (some 0)]
  nodePodsAcquiring := [("p1", 0)]

/-- A valid node record for the upsert examples. -/
def dupNode : NodeConsoleInfo :=
  { NodeName := "x1", BmcName := "b1", BmcFqdn := "f1", Class := "River",
    NID := 7, Role := "Compute", NodeConsoleName := "" }

/-- A store that knows node n1 but has it unassigned. -/
def unassignedStore : DataState where
  rows := [exRow "n1" "River" none none]
  nodePodsAcquiring := []

/-- A store that has node n1 assigned to pod p7. -/
def assignedStore : DataState where
  rows := [exRow "n1" "River" (some "p7") (some 0)]
  nodePodsAcquiring := []

/-- A worker node record of the given class. -/
def exWorkerNode (n cls : String) : nodeConsoleInfo :=
  { NodeName := n, BmcName := n ++ "b", BmcFqdn := n ++ "f", Class := cls,
    NID := 1, Role := "Compute" }

/-- A worker holding two Paradise nodes and nothing else. -/
def pdsOnlyWorker : WorkerNodes where
  currentRvrNodes := []
  currentMtnNodes := []
  currentPdsNodes := [("pd1", exWorkerNode "pd1" "Paradise"),
                      ("pd2", exWorkerNode "pd2" "Paradise")]

/-- Base configuration whose first 50 bytes contain the flag set to TRUE in
upper case and, further on, the same flag set to false in lower case. -/
def bothFlagsBase : List Char :=
  "# UPDATE_CONFIG=TRUE update_config=false xxxxxxxxxx".toList

/-- Base configuration whose first 50 bytes set the flag to FALSE. -/
def falseFlagBase : List Char :=
  "# UPDATE_CONFIG=FALSE xxxxxxxxxxxxxxxxxxxxxxxxxxxxxx".toList

/-- A store with one stale and one fresh heartbeat and matching acquiring
entries. -/
def staleStore : DataState where
  rows := [exRow "n1" "River" (some "p1") (some 2),
           exRow "n2" "River" (some "p2") (some 8)]
  nodePodsAcquiring := [("p1", 2), ("p2", 8)]

/-! ## Theorems -/

/-- C4: after dbClearStaleNodes(d) returns, every row whose prior heartbeat
was older than now minus d has been rewritten with owner NULL and heartbeat
NULL, the resulting table holds no heartbeat older than now minus d, and
every acquiring-map entry whose last-seen timestamp is older than d has been
removed. -/
theorem c4_expire_stale (d now : Int) (s : DataState) :
    (∀ r ∈ s.rows, staleRow d now r = true →
      { r with console_pod_id := none, heartbeat := none } ∈
        (dbClearStaleNodes d now s).state.rows) ∧
    (∀ r2 ∈ (dbClearStaleNodes d now s).state.rows, ∀ h : Int,
      r2.heartbeat = some h → ¬ h < now - d) ∧
    (∀ p : String × Int, p.2 + d < now →
      p ∉ (dbClearStaleNodes d now s).state.nodePodsAcquiring) := by
  refine ⟨?_, ?_, ?_⟩
  · intro r hr hst
    simp only [dbClearStaleNodes]
    exact List.mem_map.mpr ⟨r, hr, by simp [hst]⟩
  · intro r2 hr2 h hhb hlt
    obtain ⟨r, hr, heq⟩ :=
      List.mem_map.mp (by simpa [dbClearStaleNodes] using hr2)
    subst heq
    by_cases hs : staleRow d now r = true
    · rw [if_pos hs] at hhb
      simp at hhb
    · rw [if_neg hs] at hhb
      simp [staleRow, hhb, hlt] at hs
  · intro p hp hmem
    simp [dbClearStaleNodes, clearStaleNodesAcquiring, List.mem_filter] at hmem
    omega

/-- C4 witness: the stale row of the example store comes back cleared. -/
theorem c4_expire_stale_witness :
    { exRow "n1" "River" (some "p1") (some 2) with
        console_pod_id := none, heartbeat := none } ∈
      (dbClearStaleNodes 3 10 staleStore).state.rows :=
  (c4_expire_stale 3 10 staleStore).1 _ (by simp [staleStore]) (by decide)

/-- C7: the rebalance guard ignores the Paradise map.  With no River and no
Mountain nodes, two Paradise nodes and a mountain target of one, the
combined Key-SSH plus Password-SSH count exceeds the target yet
rebalanceNodes evicts nothing and emits no Release call. -/
theorem c7_rebalance_guard_ignores_paradise :
    ((pdsOnlyWorker.currentMtnNodes.length +
        pdsOnlyWorker.currentPdsNodes.length : Nat) : Int) > 1 ∧
    rebalanceNodes pdsOnlyWorker 0 1 =
      { nodes := pdsOnlyWorker, released := [], changed := false } := by
  constructor
  · decide
  · rfl

/-- C8 counterexample: node n1 exists in the store (unassigned), yet the
lookup answers 404 rather than 200 with an empty nodeconsolename. -/
theorem c8_counterexample :
    unassignedStore.rows.map (·.node_name) = ["n1"] ∧
    (findConsolePodForNode "n1" unassignedStore).1 = 404 := by
  decide

/-- C8 (amended): the lookup answers 200 with nodeconsolename equal to the
owning worker when the node is assigned, and 404 with an empty
nodeconsolename when the node is unknown or unassigned. -/
theorem c8_owner_lookup (s : DataState) (xname : String) (hx : xname ≠ "") :
    (s.rows.find? (fun rw => decide (rw.node_name = xname)) = none →
      findConsolePodForNode xname s = (404, { NodeName := xname })) ∧
    (∀ r, s.rows.find? (fun rw => decide (rw.node_name = xname)) = some r →
      r.console_pod_id = none →
      findConsolePodForNode xname s = (404, { NodeName := xname })) ∧
    (∀ r p, s.rows.find? (fun rw => decide (rw.node_name = xname)) = some r →
      r.console_pod_id = some p → p ≠ "" →
      findConsolePodForNode xname s =
        (200, { NodeName := xname, NodeConsoleName := p })) := by
  refine ⟨?_, ?_, ?_⟩
  · intro hfind
    simp [findConsolePodForNode, dbFindConsolePodForNode, hx, hfind]
  · intro r hfind howner
    simp [findConsolePodForNode, dbFindConsolePodForNode, hx, hfind, howner]
  · intro r p hfind howner hp
    simp [findConsolePodForNode, dbFindConsolePodForNode, hx, hfind, howner, hp]

/-- C8 witness: the assigned example store answers 200 with the owner. -/
theorem c8_owner_lookup_witness :
    findConsolePodForNode "n1" assignedStore =
      (200, { NodeName := "n1", NodeConsoleName := "p7" }) :=
  (c8_owner_lookup assignedStore "n1" (by decide)).2.2
    (exRow "n1" "River" (some "p7") (some 0)) "p7"
    (by decide) (by decide) (by decide)

/-- C9 counterexample: a base file whose first 50 bytes contain the flag
with value F case-insensitively, yet the generator rewrites the
configuration even without the force flag. -/
theorem c9_counterexample :
    containsCI "UPDATE_CONFIG=F".toList (bothFlagsBase.take 50) = true ∧
    updateConfigWrites false bothFlagsBase = true := by
  decide

/-- Helper: the runConman force flag is false on every call after the
first. -/
theorem conmanForceFlag_succ (n : Nat) : conmanForceFlag (n + 1) = false := by
  unfold conmanForceFlag
  rw [Function.iterate_succ_apply']
  rfl

/-- C9 (amended): the escape hatch matches the UPDATE_CONFIG= key
case-sensitively and only at a positive position: when its first occurrence
within the first 50 bytes is past the start and followed by F or f, the
generator skips the rewrite; the force flag is true exactly on the first
configConman call after process start, and a forced call rewrites. -/
theorem c9_escape_hatch (contents : List Char) (pos : Nat) (c : Char)
    (hfind : firstIdxOf updateConfigKey (contents.take 50) = some pos)
    (hpos : 0 < pos)
    (hval : (contents.take 50).get? (pos + updateConfigKey.length) = some c)
    (hc : c = 'F' ∨ c = 'f') :
    willUpdateConfig contents = false ∧
    (∀ n : Nat, 0 < n → updateConfigWrites (conmanForceFlag n) contents = false) ∧
    conmanForceFlag 0 = true ∧
    updateConfigWrites (conmanForceFlag 0) contents = true := by
  have hskip : willUpdateConfig contents = false := by
    simp only [willUpdateConfig]
    split
    · rfl
    · split
      · next pos2 heq =>
          rw [hfind] at heq
          injection heq with heq2
          subst heq2
          rw [if_pos hpos]
          split
          · next c2 hval2 =>
              rw [hval] at hval2
              injection hval2 with hc2
              subst hc2
              rcases hc with rfl | rfl <;> simp
          · rfl
      · rfl
  refine ⟨hskip, ?_, rfl, ?_⟩
  · intro n hn
    obtain ⟨k, rfl⟩ : ∃ k, n = k + 1 := ⟨n - 1, by omega⟩
    rw [conmanForceFlag_succ]
    simp [updateConfigWrites, hskip]
  · simp [updateConfigWrites, conmanForceFlag]

/-- C9 witness: the FALSE-flag base file is skipped on the second call and
the force flag holds only on the first call. -/
theorem c9_escape_hatch_witness :
    willUpdateConfig falseFlagBase = false ∧
    updateConfigWrites (conmanForceFlag 1) falseFlagBase = false := by
  have h := c9_escape_hatch falseFlagBase 2 'F'
    (by decide) (by decide) (by decide) (Or.inl rfl)
  exact ⟨h.1, h.2.1 1 (by decide)⟩

/-- Helper: dbUpdateNodes inserts every record when all records are valid,
their names are pairwise distinct and none is already present. -/
theorem dbUpdateNodes_all_fresh (ncis : List NodeConsoleInfo) (now : Int)
    (rows : List OwnershipRow)
    (hval : ∀ n ∈ ncis, validNode n = true)
    (hnd : (ncis.map (·.NodeName)).Nodup)
    (hfresh : ∀ n ∈ ncis, ∀ r ∈ rows, r.node_name ≠ n.NodeName) :
    dbUpdateNodes ncis now rows =
      { rowsInserted := (ncis.length : Int), hadError := false,
        rows := rows ++ ncis.map (nciToRow · now) } := by
  induction ncis generalizing rows with
  | nil => simp [dbUpdateNodes]
  | cons n rest ih =>
    have hvn : validNode n = true := hval n (by simp)
    have hany : rows.any (fun r => decide (r.node_name = n.NodeName)) = false := by
      simp only [List.any_eq_false, decide_eq_true_eq]
      intro r hr
      exact hfresh n (by simp) r hr
    have hnd0 : (∀ x ∈ rest, ¬ x.NodeName = n.NodeName) ∧
        (rest.map (·.NodeName)).Nodup := by simpa using hnd
    have hfresh' : ∀ m ∈ rest, ∀ r ∈ rows ++ [nciToRow n now],
        r.node_name ≠ m.NodeName := by
      intro m hm r hr
      rcases List.mem_append.mp hr with hr1 | hr2
      · exact hfresh m (by simp [hm]) r hr1
      · have hr3 : r = nciToRow n now := by simpa using hr2
        subst hr3
        show n.NodeName ≠ m.NodeName
        intro hcontra
        exact hnd0.1 m hm hcontra.symm
    have hrec := ih (rows ++ [nciToRow n now])
      (fun m hm => hval m (List.mem_cons_of_mem _ hm)) hnd0.2 hfresh'
    simp only [dbUpdateNodes, hvn, hany, Bool.false_eq_true, reduceIte, hrec]
    simp [List.append_assoc]

/-- Helper: dbUpdateNodes inserts nothing and changes nothing when every
record is valid and its name is already present. -/
theorem dbUpdateNodes_all_dup (ncis : List NodeConsoleInfo) (now : Int)
    (rows : List OwnershipRow)
    (hval : ∀ n ∈ ncis, validNode n = true)
    (hdup : ∀ n ∈ ncis, ∃ r ∈ rows, r.node_name = n.NodeName) :
    dbUpdateNodes ncis now rows =
      { rowsInserted := 0, hadError := false, rows := rows } := by
  induction ncis with
  | nil => simp [dbUpdateNodes]
  | cons n rest ih =>
    have hvn : validNode n = true := hval n (by simp)
    have hany : rows.any (fun r => decide (r.node_name = n.NodeName)) = true := by
      obtain ⟨r, hr, he⟩ := hdup n (by simp)
      exact List.any_eq_true.mpr ⟨r, hr, by simp [he]⟩
    simp only [dbUpdateNodes, hvn, hany, if_true, reduceIte]
    exact ih (fun m hm => hval m (by simp [hm])) (fun m hm => hdup m (by simp [hm]))

/-- C5 (amended): for a non-empty list of valid node records with pairwise
distinct names applied to an empty store, the upsert returns created equal
to the list length with status 201; a second identical upsert returns
created zero with status 200 and leaves every row unmodified. -/
theorem c5_upsert_idempotent (ncis : List NodeConsoleInfo) (now now2 : Int)
    (acq acq2 : List (String × Int))
    (hval : ∀ n ∈ ncis, validNode n = true)
    (hnd : (ncis.map (·.NodeName)).Nodup)
    (hne : ncis ≠ []) :
    (dbUpdateNodes ncis now []).rowsInserted = (ncis.length : Int) ∧
    (updateNodes ncis now { rows := [], nodePodsAcquiring := acq }).1 = 201 ∧
    (dbUpdateNodes ncis now2 (dbUpdateNodes ncis now []).rows).rowsInserted = 0 ∧
    (dbUpdateNodes ncis now2 (dbUpdateNodes ncis now []).rows).rows =
      (dbUpdateNodes ncis now []).rows ∧
    (updateNodes ncis now2
      { rows := (dbUpdateNodes ncis now []).rows,
        nodePodsAcquiring := acq2 }).1 = 200 := by
  have h1 := dbUpdateNodes_all_fresh ncis now [] hval hnd (by simp)
  have hdup : ∀ n ∈ ncis,
      ∃ r ∈ (dbUpdateNodes ncis now []).rows, r.node_name = n.NodeName := by
    intro n hn
    rw [h1]
    refine ⟨nciToRow n now, ?_, rfl⟩
    simp only [List.nil_append, List.mem_map]
    exact ⟨n, hn, rfl⟩
  have h2 := dbUpdateNodes_all_dup ncis now2 _ hval hdup
  have hlen : 0 < ncis.length := by
    cases ncis with
    | nil => exact absurd rfl hne
    | cons a l => simp
  refine ⟨by rw [h1], ?_, by rw [h2], by rw [h2], ?_⟩
  · simp only [updateNodes, h1]
    have : (0 : Int) < (ncis.length : Int) := by exact_mod_cast hlen
    simp [this]
  · simp [updateNodes, h2]

/-- C5 witness: a single valid record makes the upsert create one row with
status 201 and the repeat create nothing with status 200. -/
theorem c5_upsert_idempotent_witness :
    (dbUpdateNodes [dupNode] 3 []).rowsInserted =
      (([dupNode] : List NodeConsoleInfo).length : Int) ∧
    (updateNodes [dupNode] 3 { rows := [], nodePodsAcquiring := [] }).1 = 201 ∧
    (dbUpdateNodes [dupNode] 4 (dbUpdateNodes [dupNode] 3 []).rows).rowsInserted = 0 ∧
    (dbUpdateNodes [dupNode] 4 (dbUpdateNodes [dupNode] 3 []).rows).rows =
      (dbUpdateNodes [dupNode] 3 []).rows ∧
    (updateNodes [dupNode] 4
      { rows := (dbUpdateNodes [dupNode] 3 []).rows,
        nodePodsAcquiring := [] }).1 = 200 :=
  c5_upsert_idempotent [dupNode] 3 4 [] [] (by decide) (by decide) (by decide)

/-- C5 counterexample: a list of two identical valid records applied to an
empty store creates one row, not two, and the empty list answers 200
although created equals its length. -/
theorem c5_counterexample :
    (∀ n ∈ [dupNode, dupNode], validNode n = true) ∧
    (dbUpdateNodes [dupNode, dupNode] 3 []).rowsInserted = 1 ∧
    ([dupNode, dupNode] : List NodeConsoleInfo).length = 2 ∧
    (updateNodes ([] : List NodeConsoleInfo) 3
      { rows := [], nodePodsAcquiring := [] }).1 = 200 := by
  decide

/-- C6 counterexample: at ten Mountain and ten River nodes with the default
caps, a successful replica-count read of three and stored targets zero, the
operator writes targets of six while the claimed formula demands nine. -/
theorem c6_counterexample :
    updateNodeCounts 10 10 750 2000 3 false 0 0 =
      { replicasSet := some 2, targetsWritten := some (6, 6) } ∧
    claimedAutoscale 10 10 750 2000 3 =
      { replicasSet := some 2, targetsWritten := some (9, 9) } := by
  decide

/-- C6 (amended): with no nodes reported the autoscaler changes nothing;
otherwise it sets the replica count to the maximum of the two per-class
ceiling quotients plus one, and writes per-worker targets of the ceiling
quotient by the replica count plus one — adding the value returned by the
replica-count read only when that read failed, and otherwise writing only
when a target differs from the stored per-pod numbers. -/
theorem c6_autoscale (numMtn numRvr maxMtn maxRvr : Nat) (curr : Int)
    (rErr : Bool) (storedM storedR : Int)
    (hM : 1 ≤ maxMtn) (hR : 1 ≤ maxRvr) :
    (numMtn + numRvr = 0 →
      updateNodeCounts numMtn numRvr maxMtn maxRvr curr rErr storedM storedR =
        { replicasSet := none, targetsWritten := none }) ∧
    (numMtn + numRvr ≠ 0 →
      (updateNodeCounts numMtn numRvr maxMtn maxRvr curr rErr storedM storedR).replicasSet =
        some (max (ceilDiv numMtn maxMtn) (ceilDiv numRvr maxRvr) + 1) ∧
      (updateNodeCounts numMtn numRvr maxMtn maxRvr curr rErr storedM storedR).targetsWritten =
        (let P := max (ceilDiv numMtn maxMtn) (ceilDiv numRvr maxRvr) + 1
         let tM : Int := (ceilDiv numMtn P : Nat) + 1
         let tR : Int := (ceilDiv numRvr P : Nat) + 1
         if rErr then some (tM + curr, tR + curr)
         else if tR ≠ storedR ∨ tM ≠ storedM then some (tM, tR) else none)) := by
  constructor
  · intro h0
    simp [updateNodeCounts, h0]
  · intro hne
    have hmm : max maxMtn 1 = maxMtn := Nat.max_eq_left hM
    have hmr : max maxRvr 1 = maxRvr := Nat.max_eq_left hR
    have hmax : max (ceilDiv numMtn maxMtn + 1) (ceilDiv numRvr maxRvr + 1) =
        max (ceilDiv numMtn maxMtn) (ceilDiv numRvr maxRvr) + 1 := by omega
    constructor
    · simp only [updateNodeCounts, if_neg hne, hmm, hmr, hmax]
      cases rErr <;> simp
    · simp only [updateNodeCounts, if_neg hne, hmm, hmr, hmax]
      cases rErr <;> simp

/-- C6 witness: a failed replica-count read returning minus one makes the
operator write the padded targets. -/
theorem c6_autoscale_witness :
    (updateNodeCounts 10 10 750 2000 (-1) true 0 0).replicasSet = some 2 ∧
    (updateNodeCounts 10 10 750 2000 (-1) true 0 0).targetsWritten = some (5, 5) := by
  have h := (c6_autoscale 10 10 750 2000 (-1) true 0 0
    (by decide) (by decide)).2 (by decide)
  exact ⟨h.1.trans (by decide), h.2.trans (by decide)⟩

/-- Helper: one heartbeat UPDATE composed with the per-request row effect
equals the row effect of the extended request list. -/
theorem hbEvolve_step (pod : String) (now : Int) (e : NodeConsoleInfo)
    (curr : List NodeConsoleInfo) (r : OwnershipRow) :
    hbEvolve pod now curr
      (if decide (r.node_name = e.NodeName ∧ r.console_pod_id = some pod) then
        { r with heartbeat := some now }
      else r) =
      hbEvolve pod now (e :: curr) r := by
  by_cases h2 : r.node_name = e.NodeName
  · by_cases h1 : r.console_pod_id = some pod
    · by_cases h3 : ∃ x ∈ curr, x.NodeName = r.node_name <;>
        simp [hbEvolve, h1, h2, h3]
    · by_cases h3 : ∃ x ∈ curr, x.NodeName = r.node_name <;>
        simp [hbEvolve, h1, h2, h3]
  · have h2' : ¬ e.NodeName = r.node_name := fun hx => h2 hx.symm
    by_cases h1 : r.console_pod_id = some pod <;>
      by_cases h3 : ∃ x ∈ curr, x.NodeName = r.node_name <;>
        simp [hbEvolve, h1, h2, h2', h3]

/-- Helper: folding the heartbeat UPDATE over a request list acts on each
row independently through hbEvolve. -/
theorem heartbeatFold_eq_map (pod : String) (now : Int) :
    ∀ (curr : List NodeConsoleInfo) (rows : List OwnershipRow),
    curr.foldl (fun rw e => (heartbeatExec pod e.NodeName now rw).1) rows =
      rows.map (hbEvolve pod now curr)
  | [], rows => by
    have h : ∀ r ∈ rows, hbEvolve pod now [] r = r := fun r _ => by simp [hbEvolve]
    rw [List.foldl_nil, List.map_congr_left h, List.map_id']
  | e :: curr, rows => by
    rw [List.foldl_cons, heartbeatFold_eq_map pod now curr]
    simp only [heartbeatExec, List.map_map]
    refine List.map_congr_left ?_
    intro r _
    exact hbEvolve_step pod now e curr r

/-- Helper: with more active pods than selfMonitorMax the heartbeat loop
never breaks, and its resulting table is the fold of the UPDATEs. -/
theorem heartbeatLoop_rows_eq_fold (pod loc : String) (pods : Nat) (now : Int) :
    ∀ (curr : List NodeConsoleInfo) (rows : List OwnershipRow),
    (pods > selfMonitorMax ∨ ∀ e ∈ curr, e.NodeName ≠ loc) →
    (heartbeatLoop pod loc pods now rows curr).1 =
      curr.foldl (fun rw e => (heartbeatExec pod e.NodeName now rw).1) rows
  | [], rows, _ => by simp [heartbeatLoop]
  | e :: curr, rows, h => by
    have hcond : ¬ (e.NodeName = loc ∧ ¬ pods > selfMonitorMax) := by
      rcases h with hp | hn
      · exact fun hx => hx.2 hp
      · exact fun hx => hn e (by simp) hx.1
    have hrest : pods > selfMonitorMax ∨ ∀ x ∈ curr, x.NodeName ≠ loc := by
      rcases h with hp | hn
      · exact Or.inl hp
      · exact Or.inr fun x hx => hn x (by simp [hx])
    simp only [heartbeatLoop, if_neg hcond]
    exact heartbeatLoop_rows_eq_fold pod loc pods now curr _ hrest

/-- Helper: with more active pods than selfMonitorMax, every request entry
named like the pod location lands in the notUpdated list. -/
theorem heartbeatLoop_self_in_drop (pod loc : String) (pods : Nat) (now : Int)
    (hpods : pods > selfMonitorMax) :
    ∀ (curr : List NodeConsoleInfo) (rows : List OwnershipRow)
      (nci : NodeConsoleInfo), nci ∈ curr → nci.NodeName = loc →
      nci ∈ (heartbeatLoop pod loc pods now rows curr).2.1
  | e :: curr, rows, nci, hmem, hname => by
    have hcond : ¬ (e.NodeName = loc ∧ ¬ pods > selfMonitorMax) :=
      fun hx => hx.2 hpods
    simp only [heartbeatLoop, if_neg hcond]
    rcases List.mem_cons.mp hmem with rfl | htail
    · simp [hname]
    · simp only [List.mem_append]
      exact Or.inr
        (heartbeatLoop_self_in_drop pod loc pods now hpods curr _ nci htail hname)

/-- Helper: with at most selfMonitorMax active pods, no record named like
the pod location appears in the notUpdated list. -/
theorem heartbeatLoop_break_drop (pod loc : String) (pods : Nat) (now : Int)
    (hpods : ¬ pods > selfMonitorMax) :
    ∀ (curr : List NodeConsoleInfo) (rows : List OwnershipRow)
      (x : NodeConsoleInfo), x.NodeName = loc →
      x ∉ (heartbeatLoop pod loc pods now rows curr).2.1
  | [], rows, x, hname => by simp [heartbeatLoop]
  | e :: curr, rows, x, hname => by
    by_cases he : e.NodeName = loc
    · simp [heartbeatLoop, he, hpods]
    · have hcond : ¬ (e.NodeName = loc ∧ ¬ pods > selfMonitorMax) :=
        fun hx => he hx.1
      simp only [heartbeatLoop, if_neg hcond]
      intro hmem
      have hxe : x ≠ e := fun hx => he (hx ▸ hname)
      rcases List.mem_append.mp hmem with h1 | h2
      · rcases List.mem_append.mp h1 with ha | hb
        · simp [he] at ha
        · by_cases hra : (heartbeatExec pod e.NodeName now rows).2 = 0 <;>
            simp [hra] at hb
          exact he (hb ▸ hname)
      · exact heartbeatLoop_break_drop pod loc pods now hpods curr _ x hname h2

/-- Helper: with at most selfMonitorMax active pods the heartbeat loop
coincides with the loop over the prefix of entries before the first
self-named entry. -/
theorem heartbeatLoop_takeWhile (pod loc : String) (pods : Nat) (now : Int)
    (hpods : ¬ pods > selfMonitorMax) :
    ∀ (curr : List NodeConsoleInfo) (rows : List OwnershipRow),
    heartbeatLoop pod loc pods now rows curr =
      heartbeatLoop pod loc pods now rows
        (curr.takeWhile (fun e => decide (e.NodeName ≠ loc)))
  | [], rows => by simp [List.takeWhile]
  | e :: curr, rows => by
    by_cases he : e.NodeName = loc
    · have hcond : e.NodeName = loc ∧ ¬ pods > selfMonitorMax := ⟨he, hpods⟩
      simp only [List.takeWhile_cons, he, decide_not, decide_eq_true_eq]
      simp [heartbeatLoop, hcond, he]
    · have hcond : ¬ (e.NodeName = loc ∧ ¬ pods > selfMonitorMax) :=
        fun hx => he hx.1
      have hkeep : (e :: curr).takeWhile (fun e => decide (e.NodeName ≠ loc)) =
          e :: curr.takeWhile (fun e => decide (e.NodeName ≠ loc)) := by
        simp [List.takeWhile_cons, he]
      rw [hkeep]
      simp only [heartbeatLoop, if_neg hcond]
      rw [heartbeatLoop_takeWhile pod loc pods now hpods curr]

/-- C2 counterexample: two pods are active, pod p1 owns node n1 and runs on
it; the heartbeat puts n1 into the drop list yet still refreshes its
heartbeat from 0 to 5. -/
theorem c2_counterexample :
    getNumActivePods (notifyNodeAcquiring "p1" 5 hbSelfStore.nodePodsAcquiring) = 2 ∧
    hbSelfStore.rows.map (·.heartbeat) = [some 0] ∧
    (dbConsolePodHeartbeat "p1"
      { CurrNodes := [selfNci], PodLocation := "n1" } 5 hbSelfStore).notUpdated =
      [selfNci] ∧
    (dbConsolePodHeartbeat "p1"
      { CurrNodes := [selfNci], PodLocation := "n1" } 5 hbSelfStore).state.rows =
      [exRow "n1" "Mountain" (some "p1") (some 5)] := by
  decide

/-- C2 (amended): when a heartbeat request carries a node whose name equals
the pod location and more than selfMonitorMax pods are active, that node is
put into the returned drop list but every row of that name owned by the
requesting worker still has its heartbeat refreshed; with at most
selfMonitorMax active pods the node is excluded from the drop list. -/
theorem c2_self_monitor (pod loc : String) (curr : List NodeConsoleInfo)
    (now : Int) (s : DataState) (nci : NodeConsoleInfo)
    (hmem : nci ∈ curr) (hname : nci.NodeName = loc) :
    (getNumActivePods (notifyNodeAcquiring pod now s.nodePodsAcquiring) >
        selfMonitorMax →
      nci ∈ (dbConsolePodHeartbeat pod
        { CurrNodes := curr, PodLocation := loc } now s).notUpdated ∧
      ∀ r ∈ s.rows, r.node_name = loc → r.console_pod_id = some pod →
        { r with heartbeat := some now } ∈
          (dbConsolePodHeartbeat pod
            { CurrNodes := curr, PodLocation := loc } now s).state.rows) ∧
    (getNumActivePods (notifyNodeAcquiring pod now s.nodePodsAcquiring) ≤
        selfMonitorMax →
      nci ∉ (dbConsolePodHeartbeat pod
        { CurrNodes := curr, PodLocation := loc } now s).notUpdated) := by
  constructor
  · intro hp
    constructor
    · exact heartbeatLoop_self_in_drop pod loc _ now hp curr s.rows nci hmem hname
    · intro r hr hrname hrown
      have hrows : (dbConsolePodHeartbeat pod
          { CurrNodes := curr, PodLocation := loc } now s).state.rows =
          s.rows.map (hbEvolve pod now curr) := by
        simp only [dbConsolePodHeartbeat]
        rw [heartbeatLoop_rows_eq_fold pod loc _ now curr s.rows (Or.inl hp),
          heartbeatFold_eq_map]
      rw [hrows]
      have hev : hbEvolve pod now curr r = { r with heartbeat := some now } := by
        simp only [hbEvolve]
        rw [if_pos ⟨⟨nci, hmem, by rw [hname, hrname]⟩, hrown⟩]
      exact hev ▸ List.mem_map_of_mem _ hr
  · intro hple
    exact heartbeatLoop_break_drop pod loc _ now (by omega) curr s.rows nci hname

/-- C2 witness: at the concrete two-pod store the self node lands in the
drop list. -/
theorem c2_self_monitor_witness :
    selfNci ∈ (dbConsolePodHeartbeat "p1"
      { CurrNodes := [selfNci], PodLocation := "n1" } 5 hbSelfStore).notUpdated :=
  ((c2_self_monitor "p1" "n1" [selfNci] 5 hbSelfStore selfNci
    (by decide) (by decide)).1 (by decide)).1

/-- C10: with at most selfMonitorMax active pods, the heartbeat operation
equals the operation on the prefix of the request list before its first
entry named like the pod location — so neither the self-monitored node nor
any later entry is refreshed or added to the drop list — and every row
named like the pod location is left unchanged in the table. -/
theorem c10_heartbeat_stops_at_self (pod : String)
    (hb : nodeConsoleInfoHeartBeat) (now : Int) (s : DataState)
    (hpods : getNumActivePods (notifyNodeAcquiring pod now s.nodePodsAcquiring) ≤
      selfMonitorMax) :
    dbConsolePodHeartbeat pod hb now s =
      dbConsolePodHeartbeat pod
        { CurrNodes :=
            hb.CurrNodes.takeWhile (fun e => decide (e.NodeName ≠ hb.PodLocation)),
          PodLocation := hb.PodLocation } now s ∧
    ∀ r ∈ s.rows, r.node_name = hb.PodLocation →
      r ∈ (dbConsolePodHeartbeat pod hb now s).state.rows := by
  have hnp : ¬ getNumActivePods (notifyNodeAcquiring pod now s.nodePodsAcquiring) >
      selfMonitorMax := by omega
  have htw := heartbeatLoop_takeWhile pod hb.PodLocation _ now hnp hb.CurrNodes s.rows
  constructor
  · simp only [dbConsolePodHeartbeat]
    rw [htw]
  · intro r hr hrname
    have hall : ∀ e ∈ hb.CurrNodes.takeWhile
        (fun e => decide (e.NodeName ≠ hb.PodLocation)), e.NodeName ≠ hb.PodLocation := by
      intro e he
      simpa using List.mem_takeWhile_imp he
    have hrows : (dbConsolePodHeartbeat pod hb now s).state.rows =
        s.rows.map (hbEvolve pod now
          (hb.CurrNodes.takeWhile (fun e => decide (e.NodeName ≠ hb.PodLocation)))) := by
      simp only [dbConsolePodHeartbeat]
      rw [htw, heartbeatLoop_rows_eq_fold pod hb.PodLocation _ now _ s.rows
        (Or.inr hall), heartbeatFold_eq_map]
    rw [hrows]
    have hev : hbEvolve pod now
        (hb.CurrNodes.takeWhile (fun e => decide (e.NodeName ≠ hb.PodLocation))) r = r := by
      simp only [hbEvolve]
      rw [if_neg]
      rintro ⟨⟨e, he, hename⟩, -⟩
      exact hall e he (by rw [hename, hrname])
    exact hev ▸ List.mem_map_of_mem _ hr

/-- C10 witness: with one active pod, a request carrying the self node
first and a foreign-owned node second equals the empty-prefix request, and
the owned rows stay untouched. -/
theorem c10_heartbeat_stops_at_self_witness :
    dbConsolePodHeartbeat "p1"
      { CurrNodes := [selfNci, { NodeName := "n2" }], PodLocation := "n1" }
      5 hbSoloStore =
      dbConsolePodHeartbeat "p1"
        { CurrNodes := ([selfNci, { NodeName := "n2" }] :
            List NodeConsoleInfo).takeWhile (fun e => decide (e.NodeName ≠ "n1")),
          PodLocation := "n1" } 5 hbSoloStore :=
  (c10_heartbeat_stops_at_self "p1"
    { CurrNodes := [selfNci, { NodeName := "n2" }], PodLocation := "n1" }
    5 hbSoloStore (by decide)).1

/-- Helper: the selection returns min(limit, pool size) records. -/
theorem length_acquireNodesOfType (s : DataState) (t : String) (k : Int) :
    (acquireNodesOfType s t k).length = min k.toNat (cntUnowned s t) := by
  simp [acquireNodesOfType, cntUnowned]

/-- Helper: every selected record carries the requested class. -/
theorem class_of_mem_acquireNodesOfType {s : DataState} {t : String} {k : Int}
    {x : NodeConsoleInfo} (hx : x ∈ acquireNodesOfType s t k) : x.Class = t := by
  simp only [acquireNodesOfType, List.mem_map] at hx
  obtain ⟨r, hr, rfl⟩ := hx
  have h2 := (List.mem_filter.mp (List.mem_of_mem_take hr)).2
  simp only [decide_eq_true_eq] at h2
  exact h2.1

/-- Helper: every selected record names an unowned row of the table. -/
theorem unowned_of_mem_acquireNodesOfType {s : DataState} {t : String} {k : Int}
    {x : NodeConsoleInfo} (hx : x ∈ acquireNodesOfType s t k) :
    ∃ rw ∈ s.rows, rw.node_name = x.NodeName ∧ rw.console_pod_id = none := by
  simp only [acquireNodesOfType, List.mem_map] at hx
  obtain ⟨r, hr, rfl⟩ := hx
  have h2 := List.mem_filter.mp (List.mem_of_mem_take hr)
  simp only [decide_eq_true_eq] at h2
  exact ⟨r, h2.1, rfl, h2.2.2⟩

/-- Helper: filtering a selection by its own class keeps everything. -/
theorem filter_class_self (s : DataState) (t : String) (k : Int) :
    (acquireNodesOfType s t k).filter (fun a => decide (a.Class = t)) =
      acquireNodesOfType s t k :=
  List.filter_eq_self.mpr (fun a ha => by
    simp [class_of_mem_acquireNodesOfType ha])

/-- Helper: filtering a selection by a different class drops everything. -/
theorem filter_class_other (s : DataState) (t t' : String) (k : Int)
    (h : t ≠ t') :
    (acquireNodesOfType s t k).filter (fun a => decide (a.Class = t')) = [] := by
  rw [List.filter_eq_nil_iff]
  intro a ha
  simp [class_of_mem_acquireNodesOfType ha, h]

/-- Helper: membership in a guarded selection yields a selection
membership. -/
theorem mem_ite_acquire {s : DataState} {t : String} {c : Prop} [Decidable c]
    {k : Int} {x : NodeConsoleInfo}
    (hx : x ∈ (if c then acquireNodesOfType s t k else [])) :
    ∃ k2, x ∈ acquireNodesOfType s t k2 := by
  by_cases h : c
  · rw [if_pos h] at hx
    exact ⟨k, hx⟩
  · rw [if_neg h] at hx
    simp at hx

/-- Helper: every mountain-budget record comes from one of the three class
selections. -/
theorem mem_acquireMtnNodes {s : DataState} {m : Int} {x : NodeConsoleInfo}
    (hx : x ∈ acquireMtnNodes s m) :
    ∃ t k, (t = "Mountain" ∨ t = "Hill" ∨ t = "Paradise") ∧
      x ∈ acquireNodesOfType s t k := by
  by_cases hm0 : 0 < m
  · simp only [acquireMtnNodes, if_pos hm0] at hx
    rcases List.mem_append.mp hx with h1 | h2
    · rcases List.mem_append.mp h1 with ha | hb
      · exact ⟨"Mountain", _, by simp, ha⟩
      · obtain ⟨k2, hk⟩ := mem_ite_acquire hb
        exact ⟨"Hill", k2, by simp, hk⟩
    · obtain ⟨k2, hk⟩ := mem_ite_acquire h2
      exact ⟨"Paradise", k2, by simp, hk⟩
  · simp [acquireMtnNodes, hm0] at hx

/-- Helper: the per-class sizes of the mountain-budget selection follow the
Mountain-Hill-Paradise priority cascade. -/
theorem acquireMtnNodes_counts (s : DataState) (m : Int) (hm : 0 ≤ m) :
    ((acquireMtnNodes s m).filter (fun a => decide (a.Class = "Mountain"))).length =
      min m.toNat (cntUnowned s "Mountain") ∧
    ((acquireMtnNodes s m).filter (fun a => decide (a.Class = "Hill"))).length =
      min (m.toNat - min m.toNat (cntUnowned s "Mountain")) (cntUnowned s "Hill") ∧
    ((acquireMtnNodes s m).filter (fun a => decide (a.Class = "Paradise"))).length =
      min (m.toNat - min m.toNat (cntUnowned s "Mountain") -
          min (m.toNat - min m.toNat (cntUnowned s "Mountain")) (cntUnowned s "Hill"))
        (cntUnowned s "Paradise") ∧
    ((acquireMtnNodes s m).filter (fun a => decide (a.Class = "River"))).length = 0 ∧
    (acquireMtnNodes s m).length ≤ m.toNat := by
  by_cases hm0 : 0 < m
  · simp only [acquireMtnNodes, if_pos hm0]
    split_ifs with hh hp hp <;>
      (refine ⟨?_, ?_, ?_, ?_, ?_⟩ <;>
        (simp only [List.filter_append, List.length_append, List.append_nil,
          List.filter_nil, List.length_nil, filter_class_self,
          filter_class_other s "Mountain" "Hill" _ (by decide),
          filter_class_other s "Mountain" "Paradise" _ (by decide),
          filter_class_other s "Mountain" "River" _ (by decide),
          filter_class_other s "Hill" "Mountain" _ (by decide),
          filter_class_other s "Hill" "Paradise" _ (by decide),
          filter_class_other s "Hill" "River" _ (by decide),
          filter_class_other s "Paradise" "Mountain" _ (by decide),
          filter_class_other s "Paradise" "Hill" _ (by decide),
          filter_class_other s "Paradise" "River" _ (by decide),
          length_acquireNodesOfType] at hh hp ⊢ <;> omega))
  · have hmz : m = 0 := by omega
    subst hmz
    simp [acquireMtnNodes]

/-- Helper: the acquired list of dbConsolePodAcquireNodes is the mountain
cascade followed by the river selection, or empty below the request
guard. -/
theorem acquire_acquired_eq (pod : String) (m r now : Int) (s : DataState) :
    (dbConsolePodAcquireNodes pod m r now s).acquired =
      if m < 1 ∧ r < 1 then []
      else acquireMtnNodes s m ++
        (if 0 < r then acquireNodesOfType s "River" r else []) := by
  simp only [dbConsolePodAcquireNodes]
  split
  · rfl
  · split <;> split <;> rfl

/-- Helper: with an empty acquired list the table is unchanged. -/
theorem acquire_rows_eq_of_empty (pod : String) (m r now : Int) (s : DataState)
    (he : (dbConsolePodAcquireNodes pod m r now s).acquired = []) :
    (dbConsolePodAcquireNodes pod m r now s).state.rows = s.rows := by
  simp only [dbConsolePodAcquireNodes] at he ⊢
  by_cases hguard : m < 1 ∧ r < 1
  · rw [if_pos hguard]
  · rw [if_neg hguard] at he ⊢
    by_cases hemp : (acquireMtnNodes s m ++
        (if 0 < r then acquireNodesOfType s "River" r else [])).isEmpty
    · rw [if_pos hemp]
    · rw [if_neg hemp] at he
      simp only at he
      rw [he] at hemp
      simp at hemp

/-- Helper: with a non-empty acquired list the table is the UPDATE applied
to the input table. -/
theorem acquire_rows_eq_of_ne (pod : String) (m r now : Int) (s : DataState)
    (hne : (dbConsolePodAcquireNodes pod m r now s).acquired ≠ []) :
    (dbConsolePodAcquireNodes pod m r now s).state.rows =
      acquireUpdateRows pod now
        ((dbConsolePodAcquireNodes pod m r now s).acquired.map (·.NodeName))
        s.rows := by
  simp only [dbConsolePodAcquireNodes] at hne ⊢
  by_cases hguard : m < 1 ∧ r < 1
  · rw [if_pos hguard] at hne
    simp at hne
  · rw [if_neg hguard] at hne ⊢
    by_cases hemp : (acquireMtnNodes s m ++
        (if 0 < r then acquireNodesOfType s "River" r else [])).isEmpty
    · rw [if_pos hemp] at hne
      simp only at hne
      rw [List.isEmpty_iff] at hemp
      exact absurd hemp hne
    · rw [if_neg hemp]

/-- Helper: every acquired record names an unowned row of the input
table. -/
theorem acquire_unowned_before (pod : String) (m r now : Int) (s : DataState)
    (x : NodeConsoleInfo)
    (hx : x ∈ (dbConsolePodAcquireNodes pod m r now s).acquired) :
    ∃ rw ∈ s.rows, rw.node_name = x.NodeName ∧ rw.console_pod_id = none := by
  rw [acquire_acquired_eq] at hx
  by_cases hguard : m < 1 ∧ r < 1
  · rw [if_pos hguard] at hx
    simp at hx
  · rw [if_neg hguard] at hx
    rcases List.mem_append.mp hx with h1 | h2
    · obtain ⟨t, k, _, hk⟩ := mem_acquireMtnNodes h1
      exact unowned_of_mem_acquireNodesOfType hk
    · obtain ⟨k2, hk⟩ := mem_ite_acquire h2
      exact unowned_of_mem_acquireNodesOfType hk

/-- Helper: after the acquire, every row named like an acquired record is
owned by the requesting pod. -/
theorem acquire_owner_after (pod : String) (m r now : Int) (s : DataState)
    (x : NodeConsoleInfo)
    (hx : x ∈ (dbConsolePodAcquireNodes pod m r now s).acquired) :
    ∀ rw2 ∈ (dbConsolePodAcquireNodes pod m r now s).state.rows,
      rw2.node_name = x.NodeName → rw2.console_pod_id = some pod := by
  intro rw2 h hname
  have hne : (dbConsolePodAcquireNodes pod m r now s).acquired ≠ [] := by
    intro hc
    rw [hc] at hx
    simp at hx
  rw [acquire_rows_eq_of_ne pod m r now s hne] at h
  simp only [acquireUpdateRows] at h
  obtain ⟨rw, hrw, rfl⟩ := List.mem_map.mp h
  by_cases hc : rw.node_name ∈
      (dbConsolePodAcquireNodes pod m r now s).acquired.map (·.NodeName)
  · rw [if_pos (decide_eq_true hc)]
  · rw [if_neg (by simpa using hc)] at hname
    exact absurd (by rw [hname]; exact List.mem_map_of_mem (·.NodeName) hx) hc

/-- Helper: the UPDATE of the acquire keeps the name column. -/
theorem acquireUpdateRows_names (pod : String) (now : Int) (names : List String)
    (rows : List OwnershipRow) :
    (acquireUpdateRows pod now names rows).map (·.node_name) =
      rows.map (·.node_name) := by
  simp only [acquireUpdateRows, List.map_map]
  refine List.map_congr_left ?_
  intro rw _
  by_cases h : rw.node_name ∈ names <;> simp [h]

/-- Helper: the acquire keeps the name column of the table. -/
theorem acquire_state_names (pod : String) (m r now : Int) (s : DataState) :
    (dbConsolePodAcquireNodes pod m r now s).state.rows.map (·.node_name) =
      s.rows.map (·.node_name) := by
  by_cases he : (dbConsolePodAcquireNodes pod m r now s).acquired = []
  · rw [acquire_rows_eq_of_empty pod m r now s he]
  · rw [acquire_rows_eq_of_ne pod m r now s he, acquireUpdateRows_names]

/-- Helper: the acquire never frees a name every one of whose rows is
owned. -/
theorem acquire_preserves_owned (pod : String) (m r now : Int) (s : DataState)
    (x : String)
    (hx : ∀ rw ∈ s.rows, rw.node_name = x → rw.console_pod_id ≠ none) :
    ∀ rw2 ∈ (dbConsolePodAcquireNodes pod m r now s).state.rows,
      rw2.node_name = x → rw2.console_pod_id ≠ none := by
  intro rw2 h hname
  by_cases he : (dbConsolePodAcquireNodes pod m r now s).acquired = []
  · rw [acquire_rows_eq_of_empty pod m r now s he] at h
    exact hx rw2 h hname
  · rw [acquire_rows_eq_of_ne pod m r now s he] at h
    simp only [acquireUpdateRows] at h
    obtain ⟨rw, hrw, rfl⟩ := List.mem_map.mp h
    by_cases hc : rw.node_name ∈
        (dbConsolePodAcquireNodes pod m r now s).acquired.map (·.NodeName)
    · rw [if_pos (decide_eq_true hc)]
      simp
    · rw [if_neg (by simpa using hc)] at hname ⊢
      exact hx rw hrw hname

/-- Helper: a name every one of whose rows is owned is never acquired. -/
theorem acquire_not_acquired (pod : String) (m r now : Int) (s : DataState)
    (x : String)
    (hx : ∀ rw ∈ s.rows, rw.node_name = x → rw.console_pod_id ≠ none) :
    x ∉ (dbConsolePodAcquireNodes pod m r now s).acquired.map (·.NodeName) := by
  intro hmem
  obtain ⟨a, ha, rfl⟩ := List.mem_map.mp hmem
  obtain ⟨rw, hrw, hn, ho⟩ := acquire_unowned_before pod m r now s a ha
  exact hx rw hrw hn ho

/-- C3: a claim returns at most the mountain budget filled Mountain first,
then Hill, then Paradise (the per-class counts follow the priority
cascade), at most the requested River count, and each returned node had a
NULL owner before and is owned by the worker after. -/
theorem c3_claim_priority (pod : String) (m r now : Int) (s : DataState)
    (hm : 0 ≤ m) (hr : 0 ≤ r) :
    ((dbConsolePodAcquireNodes pod m r now s).acquired.filter
        (fun a => decide (a.Class = "Mountain"))).length =
      min m.toNat (cntUnowned s "Mountain") ∧
    ((dbConsolePodAcquireNodes pod m r now s).acquired.filter
        (fun a => decide (a.Class = "Hill"))).length =
      min (m.toNat - min m.toNat (cntUnowned s "Mountain")) (cntUnowned s "Hill") ∧
    ((dbConsolePodAcquireNodes pod m r now s).acquired.filter
        (fun a => decide (a.Class = "Paradise"))).length =
      min (m.toNat - min m.toNat (cntUnowned s "Mountain") -
          min (m.toNat - min m.toNat (cntUnowned s "Mountain")) (cntUnowned s "Hill"))
        (cntUnowned s "Paradise") ∧
    ((dbConsolePodAcquireNodes pod m r now s).acquired.filter
        (fun a => decide (a.Class = "Mountain" ∨ a.Class = "Hill" ∨
          a.Class = "Paradise"))).length ≤ m.toNat ∧
    ((dbConsolePodAcquireNodes pod m r now s).acquired.filter
        (fun a => decide (a.Class = "River"))).length ≤ r.toNat ∧
    ∀ x ∈ (dbConsolePodAcquireNodes pod m r now s).acquired,
      (∃ rw ∈ s.rows, rw.node_name = x.NodeName ∧ rw.console_pod_id = none) ∧
      ∀ rw2 ∈ (dbConsolePodAcquireNodes pod m r now s).state.rows,
        rw2.node_name = x.NodeName → rw2.console_pod_id = some pod := by
  have hA := acquire_acquired_eq pod m r now s
  by_cases hguard : m < 1 ∧ r < 1
  · have hmz : m = 0 := by omega
    have hrz : r = 0 := by omega
    subst hmz
    subst hrz
    rw [if_pos hguard] at hA
    refine ⟨?_, ?_, ?_, ?_, ?_, ?_⟩ <;> simp [hA]
  · rw [if_neg hguard] at hA
    have hmc := acquireMtnNodes_counts s m hm
    have hrFilters : ∀ t2 : String, t2 ≠ "River" →
        ((if 0 < r then acquireNodesOfType s "River" r else []).filter
          (fun a => decide (a.Class = t2))) = [] := by
      intro t2 ht
      by_cases h0 : 0 < r
      · rw [if_pos h0]
        exact filter_class_other s "River" t2 r (fun hx => ht hx.symm)
      · rw [if_neg h0]
        rfl
    have hrLen : ((if 0 < r then acquireNodesOfType s "River" r else []).filter
        (fun a => decide (a.Class = "River"))).length ≤ r.toNat := by
      by_cases h0 : 0 < r
      · rw [if_pos h0, filter_class_self, length_acquireNodesOfType]
        omega
      · rw [if_neg h0]
        simp
    have hrBudget : ((if 0 < r then acquireNodesOfType s "River" r else []).filter
        (fun a => decide (a.Class = "Mountain" ∨ a.Class = "Hill" ∨
          a.Class = "Paradise"))) = [] := by
      by_cases h0 : 0 < r
      · rw [if_pos h0, List.filter_eq_nil_iff]
        intro a ha
        have hc := class_of_mem_acquireNodesOfType ha
        simp [hc]
      · rw [if_neg h0]
        rfl
    have hmBudget : ((acquireMtnNodes s m).filter
        (fun a => decide (a.Class = "Mountain" ∨ a.Class = "Hill" ∨
          a.Class = "Paradise"))) = acquireMtnNodes s m := by
      rw [List.filter_eq_self]
      intro a ha
      obtain ⟨t, k, ht, hk⟩ := mem_acquireMtnNodes ha
      have hc := class_of_mem_acquireNodesOfType hk
      rcases ht with rfl | rfl | rfl <;> simp [hc]
    refine ⟨?_, ?_, ?_, ?_, ?_, ?_⟩
    · rw [hA, List.filter_append, List.length_append,
        hrFilters "Mountain" (by decide)]
      simpa using hmc.1
    · rw [hA, List.filter_append, List.length_append,
        hrFilters "Hill" (by decide)]
      simpa using hmc.2.1
    · rw [hA, List.filter_append, List.length_append,
        hrFilters "Paradise" (by decide)]
      simpa using hmc.2.2.1
    · rw [hA, List.filter_append, List.length_append, hmBudget, hrBudget]
      simpa using hmc.2.2.2.2
    · rw [hA, List.filter_append, List.length_append]
      have h1 := hmc.2.2.2.1
      omega
    · intro x hx
      exact ⟨acquire_unowned_before pod m r now s x hx,
        acquire_owner_after pod m r now s x hx⟩

/-- C3 witness: on pools of two Mountain, three Hill and five Paradise
unowned rows, a claim of seven mountain-budget nodes returns exactly two
Mountain, three Hill and two Paradise nodes. -/
theorem c3_claim_priority_witness :
    ((dbConsolePodAcquireNodes "pod1" 7 0 5 prioStore).acquired.filter
        (fun a => decide (a.Class = "Mountain"))).length = 2 ∧
    ((dbConsolePodAcquireNodes "pod1" 7 0 5 prioStore).acquired.filter
        (fun a => decide (a.Class = "Hill"))).length = 3 ∧
    ((dbConsolePodAcquireNodes "pod1" 7 0 5 prioStore).acquired.filter
        (fun a => decide (a.Class = "Paradise"))).length = 2 := by
  have h := c3_claim_priority "pod1" 7 0 5 prioStore (by decide) (by decide)
  exact ⟨h.1.trans (by decide), h.2.1.trans (by decide), h.2.2.1.trans (by decide)⟩

/-- Helper: a serialized claim sequence keeps the name column. -/
theorem runClaims_names (now : Int) :
    ∀ (reqs : List (String × Int × Int)) (s : DataState),
    (runClaims now s reqs).1.rows.map (·.node_name) = s.rows.map (·.node_name)
  | [], s => rfl
  | (pod, m, r) :: rest, s => by
    simp only [runClaims]
    rw [runClaims_names now rest]
    exact acquire_state_names pod m r now s

/-- Helper: a name every one of whose rows is owned is never returned by
any later claim of a serialized sequence. -/
theorem runClaims_not_acquired (now : Int) (x : String) :
    ∀ (reqs : List (String × Int × Int)) (s : DataState),
    (∀ rw ∈ s.rows, rw.node_name = x → rw.console_pod_id ≠ none) →
    ∀ l ∈ (runClaims now s reqs).2, x ∉ l.map (·.NodeName)
  | [], s, hx, l, hl => by simp [runClaims] at hl
  | (pod, m, r) :: rest, s, hx, l, hl => by
    simp only [runClaims, List.mem_cons] at hl
    rcases hl with rfl | hl
    · exact acquire_not_acquired pod m r now s x hx
    · exact runClaims_not_acquired now x rest _
        (acquire_preserves_owned pod m r now s x hx) l hl

/-- Helper: the node sets returned by a serialized claim sequence are
pairwise disjoint. -/
theorem runClaims_pairwise (now : Int) :
    ∀ (reqs : List (String × Int × Int)) (s : DataState),
    List.Pairwise
      (fun a b => ∀ x, x ∈ a.map (·.NodeName) → x ∉ b.map (·.NodeName))
      (runClaims now s reqs).2
  | [], s => by simp [runClaims]
  | (pod, m, r) :: rest, s => by
    simp only [runClaims]
    refine List.pairwise_cons.mpr ⟨?_, runClaims_pairwise now rest _⟩
    intro b hb x hxa
    obtain ⟨a, ha, rfl⟩ := List.mem_map.mp hxa
    have hafter : ∀ rw ∈ (dbConsolePodAcquireNodes pod m r now s).state.rows,
        rw.node_name = a.NodeName → rw.console_pod_id ≠ none := by
      intro rw hrw hn
      rw [acquire_owner_after pod m r now s a ha rw hrw hn]
      simp
    exact runClaims_not_acquired now a.NodeName rest _ hafter b hb

/-- Helper: a duplicate-free list whose members all equal one value has at
most one member. -/
theorem nodup_all_eq_length_le_one {l : List String} {n : String}
    (hnd : l.Nodup) (hall : ∀ a ∈ l, a = n) : l.length ≤ 1 := by
  match l, hnd, hall with
  | [], _, _ => simp
  | [a], _, _ => simp
  | a :: b :: t, hnd, hall =>
    have ha := hall a (by simp)
    have hb := hall b (by simp)
    rw [List.nodup_cons] at hnd
    exact absurd (show a ∈ b :: t by
      rw [show a = b from ha.trans hb.symm]
      exact List.mem_cons_self b t) hnd.1

/-- Helper: in a table with duplicate-free names, at most one row carries a
given name together with a non-NULL owner. -/
theorem nodup_count_le_one (rows : List OwnershipRow)
    (hnd : (rows.map (·.node_name)).Nodup) (n : String) :
    (rows.filter
      (fun rw => decide (rw.node_name = n ∧ rw.console_pod_id ≠ none))).length ≤ 1 := by
  have hstep : ∀ L : List OwnershipRow,
      (L.filter (fun rw =>
        decide (rw.node_name = n ∧ rw.console_pod_id ≠ none))).length ≤
      (L.filter (fun rw => decide (rw.node_name = n))).length := by
    intro L
    induction L with
    | nil => simp
    | cons a t ih =>
      rw [List.filter_cons, List.filter_cons]
      by_cases h1 : a.node_name = n
      · by_cases h2 : a.console_pod_id ≠ none
        · rw [if_pos (by simp [h1, h2]), if_pos (by simp [h1])]
          simp only [List.length_cons]
          omega
        · rw [if_neg (by simp [h1, h2]), if_pos (by simp [h1])]
          simp only [List.length_cons]
          omega
      · rw [if_neg (by simp [h1]), if_neg (by simp [h1])]
        exact ih
  have hmapnd : ((rows.filter (fun rw => decide (rw.node_name = n))).map
      (·.node_name)).Nodup :=
    List.Nodup.sublist (List.Sublist.map _ (List.filter_sublist rows)) hnd
  have hall : ∀ a ∈ (rows.filter (fun rw => decide (rw.node_name = n))).map
      (·.node_name), a = n := by
    intro a ha
    obtain ⟨rw, hrw, rfl⟩ := List.mem_map.mp ha
    have h2 := (List.mem_filter.mp hrw).2
    simpa using h2
  have h2 := nodup_all_eq_length_le_one hmapnd hall
  rw [List.length_map] at h2
  exact le_trans (hstep rows) h2

/-- C1: starting from a table with duplicate-free node names, any
serialized sequence of Claim operations keeps every node owned by at most
one worker (at most one owned row per name), and the node sets returned to
the requests are pairwise disjoint. -/
theorem c1_single_owner (s : DataState) (reqs : List (String × Int × Int))
    (now : Int) (hnd : (s.rows.map (·.node_name)).Nodup) :
    (∀ n : String,
      ((runClaims now s reqs).1.rows.filter
        (fun rw => decide (rw.node_name = n ∧ rw.console_pod_id ≠ none))).length ≤ 1) ∧
    List.Pairwise
      (fun a b => ∀ x, x ∈ a.map (·.NodeName) → x ∉ b.map (·.NodeName))
      (runClaims now s reqs).2 := by
  constructor
  · intro n
    have hnd2 : ((runClaims now s reqs).1.rows.map (·.node_name)).Nodup := by
      rw [runClaims_names]
      exact hnd
    exact nodup_count_le_one _ hnd2 n
  · exact runClaims_pairwise now reqs s

/-- C1 witness: two workers claiming from the example store in sequence
satisfy the invariant and disjointness. -/
theorem c1_single_owner_witness :
    (∀ n : String,
      ((runClaims 5 prioStore [("pod1", 7, 0), ("pod2", 7, 0)]).1.rows.filter
        (fun rw => decide (rw.node_name = n ∧ rw.console_pod_id ≠ none))).length ≤ 1) ∧
    List.Pairwise
      (fun a b => ∀ x, x ∈ a.map (·.NodeName) → x ∉ b.map (·.NodeName))
      (runClaims 5 prioStore [("pod1", 7, 0), ("pod2", 7, 0)]).2 :=
  c1_single_owner prioStore [("pod1", 7, 0), ("pod2", 7, 0)] 5 (by decide)

end RemoteConsole
